import Mathlib

/-
Verification of the 2048-rs board engine (src/lib.rs).

The board is a 4x4 grid of `Option<NonZeroU8>` cells.  We embed it as a
function `ℕ → ℕ → Option ℕ`; only indices 0..3 are meaningful (the Rust
array has no other cells), and every operation below reads and writes only
those indices.  A stored value is the tile's exponent, a `u8` in 1..255;
`checked_add(1)` overflow at 255 is modelled explicitly.
-/

namespace G2048

set_option maxRecDepth 40000

inductive Arrow where
  | Up
  | Down
  | Left
  | Right
deriving DecidableEq, Repr

abbrev Cell := Option ℕ

abbrev Board := ℕ → ℕ → Cell

def setCell (b : Board) (px py : ℕ) (v : Cell) : Board :=
  fun i j => if i = px ∧ j = py then v else b i j

def emptyB : Board := fun _ _ => none

/-- Row-major list of the 16 cell indices; mirrors the Rust
`(0..4).map(|i| (0..4).map(move |j| (i, j))).flatten()` iterator. -/
def indiceList : List (ℕ × ℕ) :=
  [(0,0),(0,1),(0,2),(0,3),
   (1,0),(1,1),(1,2),(1,3),
   (2,0),(2,1),(2,2),(2,3),
   (3,0),(3,1),(3,2),(3,3)]

/-- Model of `NonZeroU8::checked_add(1)`: `None` exactly when the `u8`
addition would overflow (value 255). -/
def checkedAdd1 (v : ℕ) : Cell := if v + 1 ≤ 255 then some (v + 1) else none

/-- Model of `Option::unwrap` at call sites where the surrounding condition
guarantees the option is `some`. -/
def unwrapOr0 (a : Cell) : ℕ := a.getD 0

/-! Merge closure bodies from `Board::merge`, split into the tested
condition and the mutation performed when it holds. -/

def mergeCondUp (above below : Cell) : Bool := above.isSome && above == below

def mergeFireUp (above _below : Cell) : Cell × Cell :=
  (none, checkedAdd1 (unwrapOr0 above))

def mergeOpUp (a b : Cell) : Cell × Cell :=
  if mergeCondUp a b then mergeFireUp a b else (a, b)

def mergeCondDown (above below : Cell) : Bool := above.isSome && above == below

def mergeFireDown (_above below : Cell) : Cell × Cell :=
  (checkedAdd1 (unwrapOr0 below), none)

def mergeOpDown (a b : Cell) : Cell × Cell :=
  if mergeCondDown a b then mergeFireDown a b else (a, b)

def mergeCondLeft (l r : Cell) : Bool := r.isSome && l == r

def mergeFireLeft (l _r : Cell) : Cell × Cell :=
  (none, checkedAdd1 (unwrapOr0 l))

def mergeOpLeft (l r : Cell) : Cell × Cell :=
  if mergeCondLeft l r then mergeFireLeft l r else (l, r)

def mergeCondRight (l r : Cell) : Bool := r.isSome && l == r

def mergeFireRight (_l r : Cell) : Cell × Cell :=
  (checkedAdd1 (unwrapOr0 r), none)

def mergeOpRight (l r : Cell) : Cell × Cell :=
  if mergeCondRight l r then mergeFireRight l r else (l, r)

def mergeOp : Arrow → Cell → Cell → Cell × Cell
  | .Up => mergeOpUp
  | .Down => mergeOpDown
  | .Left => mergeOpLeft
  | .Right => mergeOpRight

/-! Squash closure bodies from `Board::squash_once`. -/

def squashOpUp (a b : Cell) : Cell × Cell :=
  if a.isNone && b.isSome then (b, none) else (a, b)

def squashOpDown (a b : Cell) : Cell × Cell :=
  if b.isNone && a.isSome then (none, a) else (a, b)

def squashOpLeft (l r : Cell) : Cell × Cell :=
  if l.isNone && r.isSome then (r, none) else (l, r)

def squashOpRight (l r : Cell) : Cell × Cell :=
  if r.isNone && l.isSome then (none, l) else (l, r)

def squashOp : Arrow → Cell → Cell → Cell × Cell
  | .Up => squashOpUp
  | .Down => squashOpDown
  | .Left => squashOpLeft
  | .Right => squashOpRight

/-- Cell-pair visit order of `Board::scan`.
Up: outer `(0..3).rev()` over x, inner y in 0..4, pair (x,y)-(x+1,y).
Down: outer `0..3` over x, inner y in 0..4, pair (x,y)-(x+1,y).
Left: outer `0..4` over x, inner `(0..3).rev()` over y, pair (x,y)-(x,y+1).
Right: outer `0..4` over x, inner `(0..3).rev()` over y (the source uses the
same descending inner iterator as Left), pair (x,y)-(x,y+1). -/
def scanPairs : Arrow → List ((ℕ × ℕ) × (ℕ × ℕ))
  | .Up =>
    [((2,0),(3,0)), ((2,1),(3,1)), ((2,2),(3,2)), ((2,3),(3,3)),
     ((1,0),(2,0)), ((1,1),(2,1)), ((1,2),(2,2)), ((1,3),(2,3)),
     ((0,0),(1,0)), ((0,1),(1,1)), ((0,2),(1,2)), ((0,3),(1,3))]
  | .Down =>
    [((0,0),(1,0)), ((0,1),(1,1)), ((0,2),(1,2)), ((0,3),(1,3)),
     ((1,0),(2,0)), ((1,1),(2,1)), ((1,2),(2,2)), ((1,3),(2,3)),
     ((2,0),(3,0)), ((2,1),(3,1)), ((2,2),(3,2)), ((2,3),(3,3))]
  | .Left =>
    [((0,2),(0,3)), ((0,1),(0,2)), ((0,0),(0,1)),
     ((1,2),(1,3)), ((1,1),(1,2)), ((1,0),(1,1)),
     ((2,2),(2,3)), ((2,1),(2,2)), ((2,0),(2,1)),
     ((3,2),(3,3)), ((3,1),(3,2)), ((3,0),(3,1))]
  | .Right =>
    [((0,2),(0,3)), ((0,1),(0,2)), ((0,0),(0,1)),
     ((1,2),(1,3)), ((1,1),(1,2)), ((1,0),(1,1)),
     ((2,2),(2,3)), ((2,1),(2,2)), ((2,0),(2,1)),
     ((3,2),(3,3)), ((3,1),(3,2)), ((3,0),(3,1))]

/-- Applying `op` to one cell pair: read both cells, write both results,
as in the Rust mutable-borrow pair update. -/
def applyPair (op : Cell → Cell → Cell × Cell) (b : Board) (p q : ℕ × ℕ) : Board :=
  let r := op (b p.1 p.2) (b q.1 q.2)
  setCell (setCell b p.1 p.2 r.1) q.1 q.2 r.2

/-- `Board::scan`: apply `op` to every pair in the direction's visit order. -/
def scan (d : Arrow) (op : Cell → Cell → Cell × Cell) (b : Board) : Board :=
  (scanPairs d).foldl (fun bb pq => applyPair op bb pq.1 pq.2) b

/-- `Board::squash_once`. -/
def squash_once (d : Arrow) (b : Board) : Board := scan d (squashOp d) b

/-- `Board::squash`: three iterations of `squash_once`. -/
def squash (d : Arrow) (b : Board) : Board :=
  squash_once d (squash_once d (squash_once d b))

/-- `Board::merge`: squash, merge scan, squash. -/
def merge (d : Arrow) (b : Board) : Board :=
  squash d (scan d (mergeOp d) (squash d b))

/-- `Board::is_full`. -/
def is_full (b : Board) : Bool := indiceList.all fun p => (b p.1 p.2).isSome

/-- Row clause of `Board::is_mergable`. -/
def mergable_row (b : Board) : Bool :=
  ([0,1,2,3] : List ℕ).any fun x =>
    ([0,1,2] : List ℕ).any fun y => (b x y).isSome && b x y == b x (y + 1)

/-- Column clause of `Board::is_mergable`. -/
def mergable_col (b : Board) : Bool :=
  ([0,1,2] : List ℕ).any fun x =>
    ([0,1,2,3] : List ℕ).any fun y => (b x y).isSome && b x y == b (x + 1) y

/-- `Board::is_mergable`. -/
def is_mergable (b : Board) : Bool := mergable_row b || mergable_col b

/-- `Board::is_lost`. -/
def is_lost (b : Board) : Bool := is_full b && !is_mergable b

/-- Number of occupied cells; a measuring device used by the claims, not a
source function. -/
def countOccupied (b : Board) : ℕ :=
  indiceList.countP fun p => (b p.1 p.2).isSome

/-- Abstract randomness source.  `idx` models `SliceRandom::choose` (used
modulo the slice length), `ratio` models `Rng::gen_ratio(1, 10)`, and
`pick2` models `SliceRandom::choose_multiple(rng, 2)` through the standard
without-replacement encoding below. -/
structure Rng where
  idx : ℕ
  ratio : Bool
  pick2 : ℕ × ℕ

/-- `Board::gen_num`: if full, report no spawn; otherwise place exponent 2
(probability 1/10 branch of `gen_ratio`) or exponent 1 into an empty cell
chosen from the row-major list of empties. -/
def gen_num (rng : Rng) (b : Board) : Board × Bool :=
  if is_full b then (b, false)
  else
    let empties := indiceList.filter fun p => (b p.1 p.2).isNone
    let q := (empties[rng.idx % empties.length]?).getD (0, 0)
    (setCell b q.1 q.2 (some (if rng.ratio then 2 else 1)), true)

/-- `Board::play`: merge, spawn, then report `is_lost` of the final board. -/
def play (d : Arrow) (rng : Rng) (b : Board) : Board × Bool :=
  let b1 := merge d b
  let b2 := (gen_num rng b1).1
  (b2, is_lost b2)

/-- `Board::new` with the two sampled indices made explicit: `i < 16` and
`j0 < 15` encode a distinct pair (i, j) without replacement, matching
`choose_multiple(rng, 2)` on the 16-element index list; both chosen cells
are set to exponent 1 (`NonZeroU8::new(1)`). -/
def newRaw (i j0 : ℕ) : Board :=
  let j := if j0 < i then j0 else j0 + 1
  let p := (indiceList[i]?).getD (0, 0)
  let q := (indiceList[j]?).getD (0, 0)
  setCell (setCell emptyB p.1 p.2 (some 1)) q.1 q.2 (some 1)

/-- `Board::new`. -/
def new (rng : Rng) : Board :=
  newRaw (rng.pick2.1 % 16) (rng.pick2.2 % 15)

/-!
Lane view.  Every `scan` visits each row (Left/Right) or column (Up/Down)
independently, in a fixed in-lane pair order; the definitions below give
that in-lane computation on a 4-tuple, and the factoring theorems prove the
board-level `scan`, `squash` and `merge` equal to the lane computation.
-/

abbrev Lane4 := Cell × Cell × Cell × Cell

/-- In-lane pair order (2,3), (1,2), (0,1) — the `(0..3).rev()` inner loop,
used by Up, Left and Right scans. -/
def laneScanDesc (op : Cell → Cell → Cell × Cell) : Lane4 → Lane4 :=
  fun l =>
    let r1 := op l.2.2.1 l.2.2.2
    let r2 := op l.2.1 r1.1
    let r3 := op l.1 r2.1
    (r3.1, r3.2, r2.2, r1.2)

/-- In-lane pair order (0,1), (1,2), (2,3) — the ascending inner loop, used
by the Down scan. -/
def laneScanAsc (op : Cell → Cell → Cell × Cell) : Lane4 → Lane4 :=
  fun l =>
    let r1 := op l.1 l.2.1
    let r2 := op r1.2 l.2.2.1
    let r3 := op r2.2 l.2.2.2
    (r1.1, r2.1, r3.1, r3.2)

def laneGet (l : Lane4) : ℕ → Cell
  | 0 => l.1
  | 1 => l.2.1
  | 2 => l.2.2.1
  | _ => l.2.2.2

def rowT (b : Board) (x : ℕ) : Lane4 := (b x 0, b x 1, b x 2, b x 3)

def colT (b : Board) (y : ℕ) : Lane4 := (b 0 y, b 1 y, b 2 y, b 3 y)

/-- Lane form of `squash` (three descending passes), for Up and Left. -/
def laneSquashDescUL (op : Cell → Cell → Cell × Cell) (l : Lane4) : Lane4 :=
  laneScanDesc op (laneScanDesc op (laneScanDesc op l))

/-- Lane form of `squash` for Down (three ascending passes). -/
def laneSquashAsc (op : Cell → Cell → Cell × Cell) (l : Lane4) : Lane4 :=
  laneScanAsc op (laneScanAsc op (laneScanAsc op l))

theorem scan_left_lane (op : Cell → Cell → Cell × Cell) (b : Board)
    (x y : ℕ) (hx : x < 4) (hy : y < 4) :
    scan .Left op b x y = laneGet (laneScanDesc op (rowT b x)) y := by
  interval_cases x <;> interval_cases y <;>
    simp [scan, scanPairs, applyPair, setCell, laneScanDesc, laneGet, rowT]

theorem scan_right_lane (op : Cell → Cell → Cell × Cell) (b : Board)
    (x y : ℕ) (hx : x < 4) (hy : y < 4) :
    scan .Right op b x y = laneGet (laneScanDesc op (rowT b x)) y := by
  interval_cases x <;> interval_cases y <;>
    simp [scan, scanPairs, applyPair, setCell, laneScanDesc, laneGet, rowT]

theorem scan_up_lane (op : Cell → Cell → Cell × Cell) (b : Board)
    (x y : ℕ) (hx : x < 4) (hy : y < 4) :
    scan .Up op b x y = laneGet (laneScanDesc op (colT b y)) x := by
  interval_cases x <;> interval_cases y <;>
    simp [scan, scanPairs, applyPair, setCell, laneScanDesc, laneGet, colT]

theorem scan_down_lane (op : Cell → Cell → Cell × Cell) (b : Board)
    (x y : ℕ) (hx : x < 4) (hy : y < 4) :
    scan .Down op b x y = laneGet (laneScanAsc op (colT b y)) x := by
  interval_cases x <;> interval_cases y <;>
    simp [scan, scanPairs, applyPair, setCell, laneScanAsc, laneGet, colT]

theorem lane_eta (t : Lane4) :
    (laneGet t 0, laneGet t 1, laneGet t 2, laneGet t 3) = t := by
  obtain ⟨a, b, c, d⟩ := t
  rfl

theorem rowT_scan_left (op : Cell → Cell → Cell × Cell) (b : Board)
    (x : ℕ) (hx : x < 4) :
    rowT (scan .Left op b) x = laneScanDesc op (rowT b x) := by
  show (scan .Left op b x 0, scan .Left op b x 1,
        scan .Left op b x 2, scan .Left op b x 3) = _
  rw [scan_left_lane op b x 0 hx (by omega), scan_left_lane op b x 1 hx (by omega),
    scan_left_lane op b x 2 hx (by omega), scan_left_lane op b x 3 hx (by omega),
    lane_eta]

theorem rowT_scan_right (op : Cell → Cell → Cell × Cell) (b : Board)
    (x : ℕ) (hx : x < 4) :
    rowT (scan .Right op b) x = laneScanDesc op (rowT b x) := by
  show (scan .Right op b x 0, scan .Right op b x 1,
        scan .Right op b x 2, scan .Right op b x 3) = _
  rw [scan_right_lane op b x 0 hx (by omega), scan_right_lane op b x 1 hx (by omega),
    scan_right_lane op b x 2 hx (by omega), scan_right_lane op b x 3 hx (by omega),
    lane_eta]

theorem colT_scan_up (op : Cell → Cell → Cell × Cell) (b : Board)
    (y : ℕ) (hy : y < 4) :
    colT (scan .Up op b) y = laneScanDesc op (colT b y) := by
  show (scan .Up op b 0 y, scan .Up op b 1 y,
        scan .Up op b 2 y, scan .Up op b 3 y) = _
  rw [scan_up_lane op b 0 y (by omega) hy, scan_up_lane op b 1 y (by omega) hy,
    scan_up_lane op b 2 y (by omega) hy, scan_up_lane op b 3 y (by omega) hy,
    lane_eta]

theorem colT_scan_down (op : Cell → Cell → Cell × Cell) (b : Board)
    (y : ℕ) (hy : y < 4) :
    colT (scan .Down op b) y = laneScanAsc op (colT b y) := by
  show (scan .Down op b 0 y, scan .Down op b 1 y,
        scan .Down op b 2 y, scan .Down op b 3 y) = _
  rw [scan_down_lane op b 0 y (by omega) hy, scan_down_lane op b 1 y (by omega) hy,
    scan_down_lane op b 2 y (by omega) hy, scan_down_lane op b 3 y (by omega) hy,
    lane_eta]

theorem squash_left_lane (b : Board) (x y : ℕ) (hx : x < 4) (hy : y < 4) :
    squash .Left b x y = laneGet (laneSquashDescUL squashOpLeft (rowT b x)) y := by
  have e1 : squash .Left b x y
      = scan .Left (squashOp .Left) (scan .Left (squashOp .Left) (scan .Left (squashOp .Left) b)) x y := rfl
  rw [e1, scan_left_lane _ _ x y hx hy, rowT_scan_left _ _ x hx, rowT_scan_left _ _ x hx]
  rfl

theorem squash_right_lane (b : Board) (x y : ℕ) (hx : x < 4) (hy : y < 4) :
    squash .Right b x y = laneGet (laneSquashDescUL squashOpRight (rowT b x)) y := by
  have e1 : squash .Right b x y
      = scan .Right (squashOp .Right) (scan .Right (squashOp .Right) (scan .Right (squashOp .Right) b)) x y := rfl
  rw [e1, scan_right_lane _ _ x y hx hy, rowT_scan_right _ _ x hx, rowT_scan_right _ _ x hx]
  rfl

theorem squash_up_lane (b : Board) (x y : ℕ) (hx : x < 4) (hy : y < 4) :
    squash .Up b x y = laneGet (laneSquashDescUL squashOpUp (colT b y)) x := by
  have e1 : squash .Up b x y
      = scan .Up (squashOp .Up) (scan .Up (squashOp .Up) (scan .Up (squashOp .Up) b)) x y := rfl
  rw [e1, scan_up_lane _ _ x y hx hy, colT_scan_up _ _ y hy, colT_scan_up _ _ y hy]
  rfl

theorem squash_down_lane (b : Board) (x y : ℕ) (hx : x < 4) (hy : y < 4) :
    squash .Down b x y = laneGet (laneSquashAsc squashOpDown (colT b y)) x := by
  have e1 : squash .Down b x y
      = scan .Down (squashOp .Down) (scan .Down (squashOp .Down) (scan .Down (squashOp .Down) b)) x y := rfl
  rw [e1, scan_down_lane _ _ x y hx hy, colT_scan_down _ _ y hy, colT_scan_down _ _ y hy]
  rfl

theorem rowT_squash_left (b : Board) (x : ℕ) (hx : x < 4) :
    rowT (squash .Left b) x = laneSquashDescUL squashOpLeft (rowT b x) := by
  show (squash .Left b x 0, squash .Left b x 1,
        squash .Left b x 2, squash .Left b x 3) = _
  rw [squash_left_lane b x 0 hx (by omega), squash_left_lane b x 1 hx (by omega),
    squash_left_lane b x 2 hx (by omega), squash_left_lane b x 3 hx (by omega),
    lane_eta]

theorem rowT_squash_right (b : Board) (x : ℕ) (hx : x < 4) :
    rowT (squash .Right b) x = laneSquashDescUL squashOpRight (rowT b x) := by
  show (squash .Right b x 0, squash .Right b x 1,
        squash .Right b x 2, squash .Right b x 3) = _
  rw [squash_right_lane b x 0 hx (by omega), squash_right_lane b x 1 hx (by omega),
    squash_right_lane b x 2 hx (by omega), squash_right_lane b x 3 hx (by omega),
    lane_eta]

theorem colT_squash_up (b : Board) (y : ℕ) (hy : y < 4) :
    colT (squash .Up b) y = laneSquashDescUL squashOpUp (colT b y) := by
  show (squash .Up b 0 y, squash .Up b 1 y,
        squash .Up b 2 y, squash .Up b 3 y) = _
  rw [squash_up_lane b 0 y (by omega) hy, squash_up_lane b 1 y (by omega) hy,
    squash_up_lane b 2 y (by omega) hy, squash_up_lane b 3 y (by omega) hy,
    lane_eta]

theorem colT_squash_down (b : Board) (y : ℕ) (hy : y < 4) :
    colT (squash .Down b) y = laneSquashAsc squashOpDown (colT b y) := by
  show (squash .Down b 0 y, squash .Down b 1 y,
        squash .Down b 2 y, squash .Down b 3 y) = _
  rw [squash_down_lane b 0 y (by omega) hy, squash_down_lane b 1 y (by omega) hy,
    squash_down_lane b 2 y (by omega) hy, squash_down_lane b 3 y (by omega) hy,
    lane_eta]

/-- Lane form of the whole `merge` for Left: squash, descending merge pass,
squash. -/
def laneMergeLeft (l : Lane4) : Lane4 :=
  laneSquashDescUL squashOpLeft (laneScanDesc mergeOpLeft (laneSquashDescUL squashOpLeft l))

/-- Lane form of `merge` for Right (the source scans Right with the same
descending inner loop as Left). -/
def laneMergeRight (l : Lane4) : Lane4 :=
  laneSquashDescUL squashOpRight (laneScanDesc mergeOpRight (laneSquashDescUL squashOpRight l))

/-- Lane form of `merge` for Up, acting on a column. -/
def laneMergeUp (l : Lane4) : Lane4 :=
  laneSquashDescUL squashOpUp (laneScanDesc mergeOpUp (laneSquashDescUL squashOpUp l))

/-- Lane form of `merge` for Down, acting on a column. -/
def laneMergeDown (l : Lane4) : Lane4 :=
  laneSquashAsc squashOpDown (laneScanAsc mergeOpDown (laneSquashAsc squashOpDown l))

theorem merge_left_lane (b : Board) (x y : ℕ) (hx : x < 4) (hy : y < 4) :
    merge .Left b x y = laneGet (laneMergeLeft (rowT b x)) y := by
  have e1 : merge .Left b x y
      = squash .Left (scan .Left (mergeOp .Left) (squash .Left b)) x y := rfl
  rw [e1, squash_left_lane _ x y hx hy, rowT_scan_left _ _ x hx, rowT_squash_left _ x hx]
  rfl

theorem merge_right_lane (b : Board) (x y : ℕ) (hx : x < 4) (hy : y < 4) :
    merge .Right b x y = laneGet (laneMergeRight (rowT b x)) y := by
  have e1 : merge .Right b x y
      = squash .Right (scan .Right (mergeOp .Right) (squash .Right b)) x y := rfl
  rw [e1, squash_right_lane _ x y hx hy, rowT_scan_right _ _ x hx, rowT_squash_right _ x hx]
  rfl

theorem merge_up_lane (b : Board) (x y : ℕ) (hx : x < 4) (hy : y < 4) :
    merge .Up b x y = laneGet (laneMergeUp (colT b y)) x := by
  have e1 : merge .Up b x y
      = squash .Up (scan .Up (mergeOp .Up) (squash .Up b)) x y := rfl
  rw [e1, squash_up_lane _ x y hx hy, colT_scan_up _ _ y hy, colT_squash_up _ y hy]
  rfl

theorem merge_down_lane (b : Board) (x y : ℕ) (hx : x < 4) (hy : y < 4) :
    merge .Down b x y = laneGet (laneMergeDown (colT b y)) x := by
  have e1 : merge .Down b x y
      = squash .Down (scan .Down (mergeOp .Down) (squash .Down b)) x y := rfl
  rw [e1, squash_down_lane _ x y hx hy, colT_scan_down _ _ y hy, colT_squash_down _ y hy]
  rfl

theorem foldl_applyPair_out (op : Cell → Cell → Cell × Cell)
    (L : List ((ℕ × ℕ) × (ℕ × ℕ))) (b : Board) (x y : ℕ)
    (hL : ∀ pq ∈ L, pq.1.1 < 4 ∧ pq.1.2 < 4 ∧ pq.2.1 < 4 ∧ pq.2.2 < 4)
    (h : 4 ≤ x ∨ 4 ≤ y) :
    (L.foldl (fun bb pq => applyPair op bb pq.1 pq.2) b) x y = b x y := by
  induction L generalizing b with
  | nil => rfl
  | cons p L ih =>
    rw [List.foldl_cons, ih _ fun pq hpq => hL pq (List.mem_cons_of_mem p hpq)]
    have h1 := hL p (List.mem_cons_self p L)
    simp only [applyPair, setCell]
    rw [if_neg (by omega), if_neg (by omega)]

/-- A scan never touches a cell outside the 4x4 grid: every pair it writes
has both coordinates below 4. -/
theorem scan_out_of_range (d : Arrow) (op : Cell → Cell → Cell × Cell)
    (b : Board) (x y : ℕ) (h : 4 ≤ x ∨ 4 ≤ y) : scan d op b x y = b x y := by
  cases d <;> exact foldl_applyPair_out op _ b x y (by decide) h

theorem squash_out_of_range (d : Arrow) (b : Board) (x y : ℕ)
    (h : 4 ≤ x ∨ 4 ≤ y) : squash d b x y = b x y := by
  show scan d _ (scan d _ (scan d _ b)) x y = b x y
  rw [scan_out_of_range d _ _ x y h, scan_out_of_range d _ _ x y h,
    scan_out_of_range d _ _ x y h]

theorem merge_out_of_range (d : Arrow) (b : Board) (x y : ℕ)
    (h : 4 ≤ x ∨ 4 ≤ y) : merge d b x y = b x y := by
  show squash d (scan d _ (squash d b)) x y = b x y
  rw [squash_out_of_range d _ x y h, scan_out_of_range d _ _ x y h,
    squash_out_of_range d _ x y h]

/-!
Characterisation of the squash lane computation: it slides the occupied
values to the target edge, preserving their multiset and relative order.
-/

/-- Occupied values of a lane, read at positions 0,1,2,3. -/
def laneVals (l : Lane4) : List ℕ :=
  [l.1, l.2.1, l.2.2.1, l.2.2.2].filterMap id

/-- Values packed against position 0 (the Up/Left edge). -/
def padL (vs : List ℕ) : Lane4 :=
  match vs with
  | [] => (none, none, none, none)
  | [a] => (some a, none, none, none)
  | [a, b] => (some a, some b, none, none)
  | [a, b, c] => (some a, some b, some c, none)
  | a :: b :: c :: d :: _ => (some a, some b, some c, some d)

/-- Values packed against position 3 (the Down/Right edge). -/
def padR (vs : List ℕ) : Lane4 :=
  match vs with
  | [] => (none, none, none, none)
  | [a] => (none, none, none, some a)
  | [a, b] => (none, none, some a, some b)
  | [a, b, c] => (none, some a, some b, some c)
  | a :: b :: c :: d :: _ => (some a, some b, some c, some d)

theorem laneSquash_left_char (l : Lane4) :
    laneSquashDescUL squashOpLeft l = padL (laneVals l) := by
  obtain ⟨_ | a, _ | b, _ | c, _ | d⟩ := l <;> rfl

theorem laneSquash_up_char (l : Lane4) :
    laneSquashDescUL squashOpUp l = padL (laneVals l) := by
  obtain ⟨_ | a, _ | b, _ | c, _ | d⟩ := l <;> rfl

theorem laneSquash_right_char (l : Lane4) :
    laneSquashDescUL squashOpRight l = padR (laneVals l) := by
  obtain ⟨_ | a, _ | b, _ | c, _ | d⟩ := l <;> rfl

theorem laneSquash_down_char (l : Lane4) :
    laneSquashAsc squashOpDown l = padR (laneVals l) := by
  obtain ⟨_ | a, _ | b, _ | c, _ | d⟩ := l <;> rfl

theorem laneSquash_left_idem (l : Lane4) :
    laneSquashDescUL squashOpLeft (laneSquashDescUL squashOpLeft l)
      = laneSquashDescUL squashOpLeft l := by
  obtain ⟨_ | a, _ | b, _ | c, _ | d⟩ := l <;> rfl

theorem laneSquash_up_idem (l : Lane4) :
    laneSquashDescUL squashOpUp (laneSquashDescUL squashOpUp l)
      = laneSquashDescUL squashOpUp l := by
  obtain ⟨_ | a, _ | b, _ | c, _ | d⟩ := l <;> rfl

theorem laneSquash_right_idem (l : Lane4) :
    laneSquashDescUL squashOpRight (laneSquashDescUL squashOpRight l)
      = laneSquashDescUL squashOpRight l := by
  obtain ⟨_ | a, _ | b, _ | c, _ | d⟩ := l <;> rfl

theorem laneSquash_down_idem (l : Lane4) :
    laneSquashAsc squashOpDown (laneSquashAsc squashOpDown l)
      = laneSquashAsc squashOpDown l := by
  obtain ⟨_ | a, _ | b, _ | c, _ | d⟩ := l <;> rfl

/-- Claim C7: compaction is idempotent — for every direction and every
board, applying `squash` twice for that direction yields the same board as
applying it once. -/
theorem squash_idempotent (d : Arrow) (b : Board) :
    squash d (squash d b) = squash d b := by
  funext x y
  by_cases hx : x < 4
  · by_cases hy : y < 4
    · cases d
      · rw [squash_up_lane _ x y hx hy, colT_squash_up _ y hy, laneSquash_up_idem,
          squash_up_lane _ x y hx hy]
      · rw [squash_down_lane _ x y hx hy, colT_squash_down _ y hy, laneSquash_down_idem,
          squash_down_lane _ x y hx hy]
      · rw [squash_left_lane _ x y hx hy, rowT_squash_left _ x hx, laneSquash_left_idem,
          squash_left_lane _ x y hx hy]
      · rw [squash_right_lane _ x y hx hy, rowT_squash_right _ x hx, laneSquash_right_idem,
          squash_right_lane _ x y hx hy]
    · exact squash_out_of_range d _ x y (Or.inr (by omega))
  · exact squash_out_of_range d _ x y (Or.inl (by omega))

/-- Claim C8: compaction is a stable, lane-independent slide — for every
direction and every in-range cell, the squashed board is, on each lane, the
lane's occupied values packed against the target edge in their original
relative order (so the multiset of values and their order are preserved and
no value is created, destroyed or changed). -/
theorem squash_slide_char (b : Board) (x y : ℕ) (hx : x < 4) (hy : y < 4) :
    squash .Left b x y = laneGet (padL (laneVals (rowT b x))) y
  ∧ squash .Right b x y = laneGet (padR (laneVals (rowT b x))) y
  ∧ squash .Up b x y = laneGet (padL (laneVals (colT b y))) x
  ∧ squash .Down b x y = laneGet (padR (laneVals (colT b y))) x := by
  refine ⟨?_, ?_, ?_, ?_⟩
  · rw [squash_left_lane _ x y hx hy, laneSquash_left_char]
  · rw [squash_right_lane _ x y hx hy, laneSquash_right_char]
  · rw [squash_up_lane _ x y hx hy, laneSquash_up_char]
  · rw [squash_down_lane _ x y hx hy, laneSquash_down_char]

/-- Example board used to instantiate theorems with hypotheses: a single
row 0 holding values 7, 2 with gaps. -/
def exWitnessBoard : Board := fun x y =>
  if x = 0 ∧ y = 1 then some 7 else if x = 0 ∧ y = 3 then some 2 else none

theorem squash_slide_char_witness :
    squash .Left exWitnessBoard 0 0 = laneGet (padL (laneVals (rowT exWitnessBoard 0))) 0
  ∧ squash .Right exWitnessBoard 0 0 = laneGet (padR (laneVals (rowT exWitnessBoard 0))) 0
  ∧ squash .Up exWitnessBoard 0 0 = laneGet (padL (laneVals (colT exWitnessBoard 0))) 0
  ∧ squash .Down exWitnessBoard 0 0 = laneGet (padR (laneVals (colT exWitnessBoard 0))) 0 :=
  squash_slide_char exWitnessBoard 0 0 (by omega) (by omega)

/-!
Three equal tiles in one lane (claim C2).
-/

/-- The four layouts of a lane holding exactly three equal occupied tiles of
value `v` and one empty cell. -/
def threeShapes (v : ℕ) : List Lane4 :=
  [(some v, some v, some v, none), (some v, some v, none, some v),
   (some v, none, some v, some v), (none, some v, some v, some v)]

theorem laneMerge_left_three (v : ℕ) (hv : v + 1 ≤ 255) (l : Lane4)
    (hl : l ∈ threeShapes v) :
    laneMergeLeft l = (some v, some (v + 1), none, none) := by
  fin_cases hl <;>
    simp [laneMergeLeft, laneSquashDescUL, laneScanDesc, mergeOpLeft, mergeCondLeft,
      mergeFireLeft, squashOpLeft, unwrapOr0, checkedAdd1, hv]

theorem laneMerge_up_three (v : ℕ) (hv : v + 1 ≤ 255) (l : Lane4)
    (hl : l ∈ threeShapes v) :
    laneMergeUp l = (some v, some (v + 1), none, none) := by
  fin_cases hl <;>
    simp [laneMergeUp, laneSquashDescUL, laneScanDesc, mergeOpUp, mergeCondUp,
      mergeFireUp, squashOpUp, unwrapOr0, checkedAdd1, hv]

theorem laneMerge_right_three (v : ℕ) (hv : v + 1 ≤ 255) (l : Lane4)
    (hl : l ∈ threeShapes v) :
    laneMergeRight l = (none, none, some v, some (v + 1)) := by
  fin_cases hl <;>
    simp [laneMergeRight, laneSquashDescUL, laneScanDesc, mergeOpRight, mergeCondRight,
      mergeFireRight, squashOpRight, unwrapOr0, checkedAdd1, hv]

theorem laneMerge_down_three (v : ℕ) (hv : v + 1 ≤ 255) (l : Lane4)
    (hl : l ∈ threeShapes v) :
    laneMergeDown l = (none, none, some (v + 1), some v) := by
  fin_cases hl <;>
    simp [laneMergeDown, laneSquashAsc, laneScanAsc, mergeOpDown, mergeCondDown,
      mergeFireDown, squashOpDown, unwrapOr0, checkedAdd1, hv]

/-- Board with row 0 holding three equal tiles of value 2 and column 0
holding three equal tiles of value 2 is not needed; this one has only the
row: [2, 2, 2, empty]. -/
def rowThree : Board := fun x y => if x = 0 ∧ y < 3 then some 2 else none

/-- Board whose column 0 is [2, 2, 2, empty] from top to bottom. -/
def colThree : Board := fun x y => if y = 0 ∧ x < 3 then some 2 else none

/-- Claim C2 counterexample: moving Left on a lane [2, 2, 2, empty] leaves
the unmerged tile 2 at the edge-most position 0 and puts the merged tile 3
behind it — the pair nearest the target edge did not merge, contradicting
the claim for direction Left. -/
theorem merge_three_equal_cx :
    rowT rowThree 0 ∈ threeShapes 2
  ∧ merge .Left rowThree 0 0 = some 2 ∧ merge .Left rowThree 0 1 = some 3
  ∧ merge .Left rowThree 0 2 = none ∧ merge .Left rowThree 0 3 = none :=
  ⟨by decide, by decide, by decide, by decide, by decide⟩

/-- Claim C2 (amended): in a lane holding exactly three equal occupied
tiles of value v < 255, the Right move merges the pair nearest the target
edge (the result lane, edge last, is [empty, empty, v, v+1]), while the Up,
Down and Left moves merge the pair farthest from the target edge, leaving
the unmerged tile at the edge-most position with the incremented tile
behind it ([v, v+1, empty, empty] toward the edge). -/
theorem merge_three_equal (b : Board) (v k : ℕ) (hv : v + 1 ≤ 255) (hk : k < 4) :
    (rowT b k ∈ threeShapes v →
      (merge .Left b k 0 = some v ∧ merge .Left b k 1 = some (v + 1)
        ∧ merge .Left b k 2 = none ∧ merge .Left b k 3 = none)
      ∧ (merge .Right b k 0 = none ∧ merge .Right b k 1 = none
        ∧ merge .Right b k 2 = some v ∧ merge .Right b k 3 = some (v + 1)))
  ∧ (colT b k ∈ threeShapes v →
      (merge .Up b 0 k = some v ∧ merge .Up b 1 k = some (v + 1)
        ∧ merge .Up b 2 k = none ∧ merge .Up b 3 k = none)
      ∧ (merge .Down b 0 k = none ∧ merge .Down b 1 k = none
        ∧ merge .Down b 2 k = some (v + 1) ∧ merge .Down b 3 k = some v)) := by
  constructor
  · intro hrow
    constructor
    · refine ⟨?_, ?_, ?_, ?_⟩ <;>
        rw [merge_left_lane b k _ hk (by omega), laneMerge_left_three v hv _ hrow] <;> rfl
    · refine ⟨?_, ?_, ?_, ?_⟩ <;>
        rw [merge_right_lane b k _ hk (by omega), laneMerge_right_three v hv _ hrow] <;> rfl
  · intro hcol
    constructor
    · refine ⟨?_, ?_, ?_, ?_⟩ <;>
        rw [merge_up_lane b _ k (by omega) hk, laneMerge_up_three v hv _ hcol] <;> rfl
    · refine ⟨?_, ?_, ?_, ?_⟩ <;>
        rw [merge_down_lane b _ k (by omega) hk, laneMerge_down_three v hv _ hcol] <;> rfl

theorem merge_three_equal_witness :
    merge .Left rowThree 0 0 = some 2 ∧ merge .Left rowThree 0 1 = some 3
      ∧ merge .Right rowThree 0 2 = some 2 ∧ merge .Right rowThree 0 3 = some 3 :=
  ⟨((merge_three_equal rowThree 2 0 (by omega) (by omega)).1 (by decide)).1.1,
   ((merge_three_equal rowThree 2 0 (by omega) (by omega)).1 (by decide)).1.2.1,
   ((merge_three_equal rowThree 2 0 (by omega) (by omega)).1 (by decide)).2.2.2.1,
   ((merge_three_equal rowThree 2 0 (by omega) (by omega)).1 (by decide)).2.2.2.2⟩

/-!
Merging at the maximum exponent (claim C3).
-/

/-- Board with two horizontally adjacent tiles of the maximum exponent 255
at row 0, columns 0 and 1. -/
def maxRow : Board := fun x y => if x = 0 ∧ y < 2 then some 255 else none

/-- Board with two vertically adjacent tiles of exponent 255 at column 0,
rows 0 and 1. -/
def maxCol : Board := fun x y => if y = 0 ∧ x < 2 then some 255 else none

/-- Claim C3 counterexample: merging two adjacent 255 tiles does not leave
the value unchanged — after moving Left both cells of the pair are empty,
so the tiles are destroyed rather than saturated. -/
theorem merge_max_cx :
    maxRow 0 0 = some 255 ∧ maxRow 0 1 = some 255
  ∧ merge .Left maxRow 0 0 = none ∧ merge .Left maxRow 0 1 = none :=
  ⟨by decide, by decide, by decide, by decide⟩

/-- Claim C3 (amended): merging two adjacent tiles that both hold the
maximum exponent 255 destroys both tiles: `checked_add(1)` returns `None`,
which is written into the merge target while the other cell is emptied, so
both cells end up empty, in every direction. -/
theorem merge_max_destroys :
    (∀ a b : Cell, a = some 255 → a = b →
      mergeOpUp a b = (none, none) ∧ mergeOpDown a b = (none, none)
        ∧ mergeOpLeft a b = (none, none) ∧ mergeOpRight a b = (none, none))
  ∧ (merge .Left maxRow 0 0 = none ∧ merge .Left maxRow 0 1 = none)
  ∧ (merge .Right maxRow 0 2 = none ∧ merge .Right maxRow 0 3 = none)
  ∧ (merge .Up maxCol 0 0 = none ∧ merge .Up maxCol 1 0 = none)
  ∧ (merge .Down maxCol 2 0 = none ∧ merge .Down maxCol 3 0 = none) := by
  refine ⟨?_, ⟨by decide, by decide⟩, ⟨by decide, by decide⟩,
    ⟨by decide, by decide⟩, ⟨by decide, by decide⟩⟩
  rintro a b rfl rfl
  refine ⟨?_, ?_, ?_, ?_⟩ <;> decide

theorem merge_max_destroys_witness :
    mergeOpUp (some 255) (some 255) = (none, none)
      ∧ mergeOpLeft (some 255) (some 255) = (none, none) :=
  ⟨(merge_max_destroys.1 (some 255) (some 255) rfl rfl).1,
   (merge_max_destroys.1 (some 255) (some 255) rfl rfl).2.2.1⟩

/-!
Merge participation counts (claim C1).  The merge pass of `merge` is the
lane scan `laneScanDesc`/`laneScanAsc` applied with the direction's merge
op; `countedDesc`/`countedAsc` run the same three conditional steps and
additionally count, for each lane position, how many firing merge steps
read or wrote that position.  The grounding theorems below prove the lane
component of the counted scan is exactly the merge pass of `merge`.
-/

def countedDesc (cond : Cell → Cell → Bool) (fire : Cell → Cell → Cell × Cell)
    (l : Lane4) : Lane4 × (ℕ × ℕ × ℕ × ℕ) :=
  let f1 := cond l.2.2.1 l.2.2.2
  let r1 := if f1 then fire l.2.2.1 l.2.2.2 else (l.2.2.1, l.2.2.2)
  let f2 := cond l.2.1 r1.1
  let r2 := if f2 then fire l.2.1 r1.1 else (l.2.1, r1.1)
  let f3 := cond l.1 r2.1
  let r3 := if f3 then fire l.1 r2.1 else (l.1, r2.1)
  ((r3.1, r3.2, r2.2, r1.2),
   ((if f3 then 1 else 0),
    (if f3 then 1 else 0) + (if f2 then 1 else 0),
    (if f2 then 1 else 0) + (if f1 then 1 else 0),
    (if f1 then 1 else 0)))

def countedAsc (cond : Cell → Cell → Bool) (fire : Cell → Cell → Cell × Cell)
    (l : Lane4) : Lane4 × (ℕ × ℕ × ℕ × ℕ) :=
  let f1 := cond l.1 l.2.1
  let r1 := if f1 then fire l.1 l.2.1 else (l.1, l.2.1)
  let f2 := cond r1.2 l.2.2.1
  let r2 := if f2 then fire r1.2 l.2.2.1 else (r1.2, l.2.2.1)
  let f3 := cond r2.2 l.2.2.2
  let r3 := if f3 then fire r2.2 l.2.2.2 else (r2.2, l.2.2.2)
  ((r1.1, r2.1, r3.1, r3.2),
   ((if f1 then 1 else 0),
    (if f1 then 1 else 0) + (if f2 then 1 else 0),
    (if f2 then 1 else 0) + (if f3 then 1 else 0),
    (if f3 then 1 else 0)))

def cnt4 (k : ℕ × ℕ × ℕ × ℕ) : ℕ → ℕ
  | 0 => k.1
  | 1 => k.2.1
  | 2 => k.2.2.1
  | _ => k.2.2.2

/-- How many merges of the merge pass of `merge d` touch cell (x, y):
the counted lane scan applied to the lane of the squashed board that the
merge pass actually processes. -/
def mergeCounts (d : Arrow) (b : Board) (x y : ℕ) : ℕ :=
  match d with
  | .Up => cnt4 (countedDesc mergeCondUp mergeFireUp (colT (squash .Up b) y)).2 x
  | .Down => cnt4 (countedAsc mergeCondDown mergeFireDown (colT (squash .Down b) y)).2 x
  | .Left => cnt4 (countedDesc mergeCondLeft mergeFireLeft (rowT (squash .Left b) x)).2 y
  | .Right => cnt4 (countedDesc mergeCondRight mergeFireRight (rowT (squash .Right b) x)).2 y

theorem countedDesc_lane_up (l : Lane4) :
    (countedDesc mergeCondUp mergeFireUp l).1 = laneScanDesc mergeOpUp l := rfl

theorem countedDesc_lane_left (l : Lane4) :
    (countedDesc mergeCondLeft mergeFireLeft l).1 = laneScanDesc mergeOpLeft l := rfl

theorem countedDesc_lane_right (l : Lane4) :
    (countedDesc mergeCondRight mergeFireRight l).1 = laneScanDesc mergeOpRight l := rfl

theorem countedAsc_lane_down (l : Lane4) :
    (countedAsc mergeCondDown mergeFireDown l).1 = laneScanAsc mergeOpDown l := rfl

/-- Grounding of the instrumentation: the board produced by `merge` is the
final squash applied to the lane component of the counted scan, on the same
lane input that `mergeCounts` counts. -/
theorem merge_via_counted (b : Board) (x y : ℕ) (hx : x < 4) (hy : y < 4) :
    merge .Left b x y
      = laneGet (laneSquashDescUL squashOpLeft
          (countedDesc mergeCondLeft mergeFireLeft (rowT (squash .Left b) x)).1) y
  ∧ merge .Right b x y
      = laneGet (laneSquashDescUL squashOpRight
          (countedDesc mergeCondRight mergeFireRight (rowT (squash .Right b) x)).1) y
  ∧ merge .Up b x y
      = laneGet (laneSquashDescUL squashOpUp
          (countedDesc mergeCondUp mergeFireUp (colT (squash .Up b) y)).1) x
  ∧ merge .Down b x y
      = laneGet (laneSquashAsc squashOpDown
          (countedAsc mergeCondDown mergeFireDown (colT (squash .Down b) y)).1) x := by
  refine ⟨?_, ?_, ?_, ?_⟩
  · rw [merge_left_lane b x y hx hy, countedDesc_lane_left, rowT_squash_left b x hx]
    rfl
  · rw [merge_right_lane b x y hx hy, countedDesc_lane_right, rowT_squash_right b x hx]
    rfl
  · rw [merge_up_lane b x y hx hy, countedDesc_lane_up, colT_squash_up b y hy]
    rfl
  · rw [merge_down_lane b x y hx hy, countedAsc_lane_down, colT_squash_down b y hy]
    rfl

theorem counted_left_bound (l : Lane4) :
    (countedDesc mergeCondLeft mergeFireLeft l).2.1 ≤ 1
  ∧ (countedDesc mergeCondLeft mergeFireLeft l).2.2.1 ≤ 1
  ∧ (countedDesc mergeCondLeft mergeFireLeft l).2.2.2.1 ≤ 1
  ∧ (countedDesc mergeCondLeft mergeFireLeft l).2.2.2.2 ≤ 1 := by
  obtain ⟨a, b, c, d⟩ := l
  simp only [countedDesc]
  by_cases h1 : mergeCondLeft c d = true
  · have h2 : mergeCondLeft b (mergeFireLeft c d).1 = false := by
      simp [mergeCondLeft, mergeFireLeft]
    simp only [h1, h2, if_true, if_false, Bool.false_eq_true]
    by_cases h3 : mergeCondLeft a b = true <;> simp [h3]
  · simp only [Bool.not_eq_true] at h1
    simp only [h1, Bool.false_eq_true, if_false]
    by_cases h2 : mergeCondLeft b c = true
    · have h3 : mergeCondLeft a (mergeFireLeft b c).1 = false := by
        simp [mergeCondLeft, mergeFireLeft]
      simp [h2, h3]
    · simp only [Bool.not_eq_true] at h2
      simp only [h2, Bool.false_eq_true, if_false]
      by_cases h3 : mergeCondLeft a b = true <;> simp [h3]

theorem counted_up_bound (l : Lane4) :
    (countedDesc mergeCondUp mergeFireUp l).2.1 ≤ 1
  ∧ (countedDesc mergeCondUp mergeFireUp l).2.2.1 ≤ 1
  ∧ (countedDesc mergeCondUp mergeFireUp l).2.2.2.1 ≤ 1
  ∧ (countedDesc mergeCondUp mergeFireUp l).2.2.2.2 ≤ 1 := by
  obtain ⟨a, b, c, d⟩ := l
  simp only [countedDesc]
  by_cases h1 : mergeCondUp c d = true
  · have h2 : mergeCondUp b (mergeFireUp c d).1 = false := by
      cases b <;> simp [mergeCondUp, mergeFireUp]
    simp only [h1, h2, if_true, if_false, Bool.false_eq_true]
    by_cases h3 : mergeCondUp a b = true <;> simp [h3]
  · simp only [Bool.not_eq_true] at h1
    simp only [h1, Bool.false_eq_true, if_false]
    by_cases h2 : mergeCondUp b c = true
    · have h3 : mergeCondUp a (mergeFireUp b c).1 = false := by
        cases a <;> simp [mergeCondUp, mergeFireUp]
      simp [h2, h3]
    · simp only [Bool.not_eq_true] at h2
      simp only [h2, Bool.false_eq_true, if_false]
      by_cases h3 : mergeCondUp a b = true <;> simp [h3]

theorem counted_down_bound (l : Lane4) :
    (countedAsc mergeCondDown mergeFireDown l).2.1 ≤ 1
  ∧ (countedAsc mergeCondDown mergeFireDown l).2.2.1 ≤ 1
  ∧ (countedAsc mergeCondDown mergeFireDown l).2.2.2.1 ≤ 1
  ∧ (countedAsc mergeCondDown mergeFireDown l).2.2.2.2 ≤ 1 := by
  obtain ⟨a, b, c, d⟩ := l
  simp only [countedAsc]
  by_cases h1 : mergeCondDown a b = true
  · have h2 : mergeCondDown (mergeFireDown a b).2 c = false := by
      simp [mergeCondDown, mergeFireDown]
    simp only [h1, h2, if_true, if_false, Bool.false_eq_true]
    by_cases h3 : mergeCondDown c d = true <;> simp [h3]
  · simp only [Bool.not_eq_true] at h1
    simp only [h1, Bool.false_eq_true, if_false]
    by_cases h2 : mergeCondDown b c = true
    · have h3 : mergeCondDown (mergeFireDown b c).2 d = false := by
        simp [mergeCondDown, mergeFireDown]
      simp [h2, h3]
    · simp only [Bool.not_eq_true] at h2
      simp only [h2, Bool.false_eq_true, if_false]
      by_cases h3 : mergeCondDown c d = true <;> simp [h3]

/-- Board whose row 0 is [3, 2, 2, 5]. -/
def cascadeRow : Board := fun x y =>
  if x = 0 ∧ y = 0 then some 3 else if x = 0 ∧ y = 1 then some 2
  else if x = 0 ∧ y = 2 then some 2 else if x = 0 ∧ y = 3 then some 5 else none

/-- Claim C1 counterexample: moving Right on the row [3, 2, 2, 5], the merge
pass first merges the two 2s into a 3 written at position 1 and then merges
that fresh 3 with the 3 at position 0 — cell (0,1) participates in two
merges, and the resulting row [_, _, 4, 5] contains a doubly-incremented
tile. -/
theorem merge_cascade_cx :
    mergeCounts .Right cascadeRow 0 1 = 2
  ∧ merge .Right cascadeRow 0 0 = none ∧ merge .Right cascadeRow 0 1 = none
  ∧ merge .Right cascadeRow 0 2 = some 4 ∧ merge .Right cascadeRow 0 3 = some 5 :=
  ⟨by decide, by decide, by decide, by decide, by decide⟩

/-- Claim C1 (amended): for the directions Up, Down and Left a merge never
cascades — every cell participates in at most one merge of the single merge
pass; for direction Right a newly merged tile can be merged again in the
same pass (see the counterexample). -/
theorem merge_no_cascade_UDL (b : Board) (x y : ℕ) :
    mergeCounts .Up b x y ≤ 1 ∧ mergeCounts .Down b x y ≤ 1
      ∧ mergeCounts .Left b x y ≤ 1 := by
  refine ⟨?_, ?_, ?_⟩
  · have h := counted_up_bound (colT (squash .Up b) y)
    show cnt4 _ x ≤ 1
    rcases x with _ | _ | _ | n
    · exact h.1
    · exact h.2.1
    · exact h.2.2.1
    · exact h.2.2.2
  · have h := counted_down_bound (colT (squash .Down b) y)
    show cnt4 _ x ≤ 1
    rcases x with _ | _ | _ | n
    · exact h.1
    · exact h.2.1
    · exact h.2.2.1
    · exact h.2.2.2
  · have h := counted_left_bound (rowT (squash .Left b) x)
    show cnt4 _ y ≤ 1
    rcases y with _ | _ | _ | n
    · exact h.1
    · exact h.2.1
    · exact h.2.2.1
    · exact h.2.2.2

/-!
Terminal predicate (claim C4).
-/

/-- The lost fixture of the Rust `test_is_lost`: a checkerboard of
exponents 1 and 2. -/
def checker : Board := fun x y => some ((x + y) % 2 + 1)

/-- The checkerboard with cell (3,3) emptied. -/
def checkerHole : Board := setCell checker 3 3 none

/-- Spec wording for C4: all 16 cells are occupied. -/
def FullSpec (b : Board) : Prop := ∀ x < 4, ∀ y < 4, (b x y).isSome = true

/-- Spec wording for C4: some two adjacent cells (horizontally in a row or
vertically in a column) are both occupied and hold equal tile values. -/
def AdjacentEqualSpec (b : Board) : Prop :=
  (∃ x < 4, ∃ y < 3, (b x y).isSome = true ∧ b x y = b x (y + 1)) ∨
  (∃ x < 3, ∃ y < 4, (b x y).isSome = true ∧ b x y = b (x + 1) y)

theorem is_full_iff (b : Board) : is_full b = true ↔ FullSpec b := by
  constructor
  · intro h x hx y hy
    exact List.all_eq_true.mp h (x, y)
      (by interval_cases x <;> interval_cases y <;> decide)
  · intro h
    apply List.all_eq_true.mpr
    intro p hp
    fin_cases hp <;> exact h _ (by omega) _ (by omega)

theorem mergable_row_iff (b : Board) :
    mergable_row b = true
      ↔ ∃ x < 4, ∃ y < 3, (b x y).isSome = true ∧ b x y = b x (y + 1) := by
  constructor
  · intro h
    obtain ⟨x, hxm, h2⟩ := List.any_eq_true.mp h
    obtain ⟨y, hym, h3⟩ := List.any_eq_true.mp h2
    rw [Bool.and_eq_true, beq_iff_eq] at h3
    have hx : x < 4 := by fin_cases hxm <;> omega
    have hy : y < 3 := by fin_cases hym <;> omega
    exact ⟨x, hx, y, hy, h3.1, h3.2⟩
  · rintro ⟨x, hx, y, hy, h1, h2⟩
    apply List.any_eq_true.mpr
    refine ⟨x, by interval_cases x <;> decide, ?_⟩
    apply List.any_eq_true.mpr
    refine ⟨y, by interval_cases y <;> decide, ?_⟩
    rw [Bool.and_eq_true, beq_iff_eq]
    exact ⟨h1, h2⟩

theorem mergable_col_iff (b : Board) :
    mergable_col b = true
      ↔ ∃ x < 3, ∃ y < 4, (b x y).isSome = true ∧ b x y = b (x + 1) y := by
  constructor
  · intro h
    obtain ⟨x, hxm, h2⟩ := List.any_eq_true.mp h
    obtain ⟨y, hym, h3⟩ := List.any_eq_true.mp h2
    rw [Bool.and_eq_true, beq_iff_eq] at h3
    have hx : x < 3 := by fin_cases hxm <;> omega
    have hy : y < 4 := by fin_cases hym <;> omega
    exact ⟨x, hx, y, hy, h3.1, h3.2⟩
  · rintro ⟨x, hx, y, hy, h1, h2⟩
    apply List.any_eq_true.mpr
    refine ⟨x, by interval_cases x <;> decide, ?_⟩
    apply List.any_eq_true.mpr
    refine ⟨y, by interval_cases y <;> decide, ?_⟩
    rw [Bool.and_eq_true, beq_iff_eq]
    exact ⟨h1, h2⟩

theorem is_mergable_iff (b : Board) :
    is_mergable b = true ↔ AdjacentEqualSpec b := by
  rw [is_mergable, Bool.or_eq_true]
  exact or_congr (mergable_row_iff b) (mergable_col_iff b)

/-- Claim C4: `is_lost` is true iff all 16 cells are occupied and no two
adjacent cells hold equal tile values; in particular the full checkerboard
of exponents 1 and 2 is lost and the same board with one cell emptied is
not lost. -/
theorem is_lost_characterization (b : Board) :
    (is_lost b = true ↔ FullSpec b ∧ ¬ AdjacentEqualSpec b)
  ∧ is_lost checker = true ∧ is_lost checkerHole = false := by
  refine ⟨?_, by decide, by decide⟩
  rw [is_lost, Bool.and_eq_true]
  refine and_congr (is_full_iff b) ?_
  rw [← is_mergable_iff b]
  cases is_mergable b <;> simp

/-!
Move application order (claim C5).
-/

/-- A concrete randomness source for instantiations. -/
def rng0 : Rng := ⟨0, false, (0, 0)⟩

/-- Claim C5: `play` performs the merge phase, then the spawn phase, and
returns exactly `is_lost` of the board after the spawn; the added concrete
instance shows the check genuinely happens after the spawn — before the
spawn the board is not lost, after it the game is lost. -/
theorem play_terminal_after_spawn :
    (∀ (d : Arrow) (rng : Rng) (b : Board),
      play d rng b = ((gen_num rng (merge d b)).1, is_lost (gen_num rng (merge d b)).1))
  ∧ (play .Up rng0 checkerHole).2 = true
  ∧ is_lost (merge .Up checkerHole) = false :=
  ⟨fun _ _ _ => rfl, by decide, by decide⟩

/-!
Spawning (claims C6 and C10).
-/

/-- Claim C6: on a full board `gen_num` returns false and leaves the board
unchanged; on a non-full board it returns true. -/
theorem gen_num_full (rng : Rng) (b : Board) :
    (is_full b = true → gen_num rng b = (b, false))
  ∧ (is_full b = false → (gen_num rng b).2 = true) := by
  constructor <;> intro h <;> simp [gen_num, h]

theorem gen_num_full_witness :
    gen_num rng0 checker = (checker, false) ∧ (gen_num rng0 emptyB).2 = true :=
  ⟨(gen_num_full rng0 checker).1 (by decide), (gen_num_full rng0 emptyB).2 (by decide)⟩

theorem mem_indiceList_bounds : ∀ p ∈ indiceList, p.1 < 4 ∧ p.2 < 4 := by decide

theorem countP_setCell_aux (b : Board) (x y : ℕ) (v : ℕ) (h : b x y = none) :
    ∀ L : List (ℕ × ℕ), L.Nodup → (x, y) ∈ L →
      (L.countP fun p => ((setCell b x y (some v)) p.1 p.2).isSome)
        = (L.countP fun p => (b p.1 p.2).isSome) + 1 := by
  intro L
  induction L with
  | nil => intro _ hmem; exact absurd hmem (List.not_mem_nil _)
  | cons q L ih =>
    intro hnd hmem
    obtain ⟨q1, q2⟩ := q
    have hq := List.nodup_cons.mp hnd
    rcases List.mem_cons.mp hmem with heq | hm
    · injection heq with e1 e2
      subst e1
      subst e2
      have htail : (L.countP fun p => ((setCell b x y (some v)) p.1 p.2).isSome)
          = L.countP fun p => (b p.1 p.2).isSome := by
        apply List.countP_congr
        rintro ⟨r1, r2⟩ hr
        have hrne : ¬(r1 = x ∧ r2 = y) := by
          rintro ⟨rfl, rfl⟩
          exact hq.1 hr
        simp [setCell, hrne]
      rw [List.countP_cons, List.countP_cons, htail]
      simp [setCell, h]
    · have hqne : ¬(q1 = x ∧ q2 = y) := by
        rintro ⟨rfl, rfl⟩
        exact hq.1 hm
      rw [List.countP_cons, List.countP_cons, ih hq.2 hm]
      have hsame : ((setCell b x y (some v)) (q1, q2).1 (q1, q2).2).isSome
          = (b (q1, q2).1 (q1, q2).2).isSome := by
        simp [setCell, hqne]
      rw [hsame]
      omega

theorem countOccupied_setCell (b : Board) (x y : ℕ) (v : ℕ)
    (hx : x < 4) (hy : y < 4) (h : b x y = none) :
    countOccupied (setCell b x y (some v)) = countOccupied b + 1 := by
  apply countP_setCell_aux b x y v h indiceList (by decide)
  interval_cases x <;> interval_cases y <;> decide

theorem gen_num_spawns (rng : Rng) (b : Board) (h : is_full b = false) :
    ∃ x y, x < 4 ∧ y < 4 ∧ b x y = none ∧
      gen_num rng b = (setCell b x y (some (if rng.ratio then 2 else 1)), true) := by
  have hne : (indiceList.filter fun p => (b p.1 p.2).isNone) ≠ [] := by
    intro hemp
    have hfull : is_full b = true := by
      apply List.all_eq_true.mpr
      intro p hp
      by_contra hps
      have hmem : p ∈ indiceList.filter fun p => (b p.1 p.2).isNone := by
        refine List.mem_filter.mpr ⟨hp, ?_⟩
        show (b p.1 p.2).isNone = true
        cases hbp : b p.1 p.2
        · rfl
        · exact absurd (by rw [hbp]; rfl) hps
      rw [hemp] at hmem
      exact absurd hmem (List.not_mem_nil _)
    rw [hfull] at h
    exact absurd h (by decide)
  have hlen : 0 < (indiceList.filter fun p => (b p.1 p.2).isNone).length :=
    List.length_pos.mpr hne
  have hidx : rng.idx % (indiceList.filter fun p => (b p.1 p.2).isNone).length
      < (indiceList.filter fun p => (b p.1 p.2).isNone).length := Nat.mod_lt _ hlen
  have hget : (indiceList.filter fun p => (b p.1 p.2).isNone)[rng.idx %
        (indiceList.filter fun p => (b p.1 p.2).isNone).length]?
      = some ((indiceList.filter fun p => (b p.1 p.2).isNone)[rng.idx %
        (indiceList.filter fun p => (b p.1 p.2).isNone).length]) :=
    List.getElem?_eq_getElem hidx
  have hmem : (indiceList.filter fun p => (b p.1 p.2).isNone)[rng.idx %
        (indiceList.filter fun p => (b p.1 p.2).isNone).length]
      ∈ indiceList.filter fun p => (b p.1 p.2).isNone := List.getElem_mem hidx
  obtain ⟨hmemI, hnone⟩ := List.mem_filter.mp hmem
  obtain ⟨hx4, hy4⟩ := mem_indiceList_bounds _ hmemI
  refine ⟨_, _, hx4, hy4, Option.isNone_iff_eq_none.mp hnone, ?_⟩
  show (if is_full b then (b, false) else _) = _
  rw [h]
  simp only [Bool.false_eq_true, if_false]
  rw [hget]
  rfl

/-- Claim C10: whenever the post-merge board still has an empty cell, the
spawn phase of `play` always places one new tile (exponent 2 on the
`gen_ratio` branch, else 1) into a previously empty in-range cell — even if
the merge changed nothing — so the occupied count rises by exactly one. -/
theorem play_always_spawns (d : Arrow) (rng : Rng) (b : Board)
    (h : is_full (merge d b) = false) :
    (gen_num rng (merge d b)).2 = true
  ∧ countOccupied (play d rng b).1 = countOccupied (merge d b) + 1
  ∧ ∃ x y, x < 4 ∧ y < 4 ∧ merge d b x y = none ∧
      (play d rng b).1 = setCell (merge d b) x y (some (if rng.ratio then 2 else 1)) := by
  obtain ⟨x, y, hx, hy, hnone, heq⟩ := gen_num_spawns rng (merge d b) h
  have hplay : (play d rng b).1 = (gen_num rng (merge d b)).1 := rfl
  refine ⟨by rw [heq], ?_, x, y, hx, hy, hnone, by rw [hplay, heq]⟩
  rw [hplay, heq]
  exact countOccupied_setCell _ x y _ hx hy hnone

theorem play_always_spawns_witness :
    (gen_num rng0 (merge .Left emptyB)).2 = true
  ∧ countOccupied (play .Left rng0 emptyB).1 = countOccupied (merge .Left emptyB) + 1 :=
  ⟨(play_always_spawns .Left rng0 emptyB (by decide)).1,
   (play_always_spawns .Left rng0 emptyB (by decide)).2.1⟩

/-!
Initialization (claim C9).
-/

theorem newRaw_spec : ∀ i : Fin 16, ∀ j : Fin 15,
    countOccupied (newRaw i.val j.val) = 2
    ∧ ∀ x : Fin 4, ∀ y : Fin 4,
        (newRaw i.val j.val x.val y.val).isSome = true
          → newRaw i.val j.val x.val y.val = some 1 := by
  decide

/-- Claim C9: for every randomness source, `new` produces a board with
exactly 2 occupied cells (hence 2 distinct positions, the other 14 empty),
each holding exponent 1. -/
theorem new_two_tiles (rng : Rng) :
    countOccupied (new rng) = 2
    ∧ ∀ x < 4, ∀ y < 4, (new rng x y).isSome = true → new rng x y = some 1 := by
  have h := newRaw_spec ⟨rng.pick2.1 % 16, Nat.mod_lt _ (by omega)⟩
    ⟨rng.pick2.2 % 15, Nat.mod_lt _ (by omega)⟩
  exact ⟨h.1, fun x hx y hy => h.2 ⟨x, hx⟩ ⟨y, hy⟩⟩

theorem new_two_tiles_witness :
    countOccupied (new rng0) = 2 ∧ new rng0 0 0 = some 1 :=
  ⟨(new_two_tiles rng0).1, (new_two_tiles rng0).2 0 (by omega) 0 (by omega) (by decide)⟩

end G2048
